import Mathlib

/-!
Verification of the zigzag wall-combiner engine of the Bricklayers repository
(`modules/functions/vertical_bricklayers.py`) against its specification.

The file shallowly embeds the engine:
* text lines are `String`; Python's `pat in line` / `line.startswith(pat)`
  substring tests are `strHas` / `strStarts` over character lists;
* the `re.search` patterns `;LAYER:(\d+)`, `X([-+]?\d*\.?\d+)` (same for `Y`
  and `E`) and `G1 X(num) Y(num)` are embedded as explicit left-to-right
  scanners with the same backtracking behaviour on these patterns;
* numeric payloads are parsed exactly into `ℚ` and carried as `ℝ`
  (`float` arithmetic is idealized as exact real arithmetic);
* the three passes of `process_gcode` are embedded separately: the wall
  extractor (2nd pass, source lines 119-260), the pairing/zigzag synthesizer
  (lines 307-442) and the splicer (lines 456-524).  The first marker-logging
  pass (lines 107-116) and the `wall_start_end` scan (lines 272-304) only
  feed the log / are never read again, so they are omitted.
-/

/-! ## String scanning utilities (Python substring / prefix tests) -/

/-- `chBegins pat cs`: `pat` is a prefix of `cs` (character lists). -/
def chBegins : List Char → List Char → Bool
  | [], _ => true
  | _ :: _, [] => false
  | a :: as, b :: bs => a == b && chBegins as bs

/-- `containsFrom pat cs`: `pat` occurs somewhere in `cs`
(Python's `pat in s`; the empty pattern always occurs). -/
def containsFrom (pat : List Char) : List Char → Bool
  | [] => chBegins pat []
  | c :: rest => chBegins pat (c :: rest) || containsFrom pat rest

/-- Python `pat in s`. -/
def strHas (s pat : String) : Bool := containsFrom pat.toList s.toList

/-- Python `s.startswith(pat)`. -/
def strStarts (s pat : String) : Bool := chBegins pat.toList s.toList

/-- Python `c in s` for a single character. -/
def chMem (c : Char) : List Char → Bool
  | [] => false
  | a :: rest => a == c || chMem c rest

/-- Python `c in line` for one character `c`. -/
def strHasChar (s : String) (c : Char) : Bool := chMem c s.toList

/-- Numeric value of a digit string. -/
def digitsVal (ds : List Char) : ℕ := ds.foldl (fun a c => a * 10 + (c.toNat - 48)) 0

/-- `re.search(r';LAYER:(\d+)', line)`: scan left to right for `;LAYER:`
immediately followed by at least one digit; return the (maximal) digit run's
value, `none` when no position matches. -/
def layerScan : List Char → Option ℕ
  | [] => none
  | c :: rest =>
    if chBegins ";LAYER:".toList (c :: rest) then
      let ds := ((c :: rest).drop 7).takeWhile Char.isDigit
      if ds.isEmpty then layerScan rest else some (digitsVal ds)
    else layerScan rest

/-- Exact rational value of a decimal numeral `intpart[.fracpart]`. -/
def decVal (sign : ℚ) (d1 d2 : List Char) : ℚ :=
  sign * ((digitsVal d1 : ℚ) + (digitsVal d2 : ℚ) / (10 : ℚ) ^ d2.length)

/-- Match the regex `[-+]?\d*\.?\d+` at the head of `cs` (with Python's
backtracking semantics, which on this pattern amount to: optional sign, then
the maximal digit run, then `.` plus a second maximal digit run only when a
digit follows the dot; at least one digit overall).  Returns the exact value
and the characters after the match. -/
def numAt (cs : List Char) : Option (ℚ × List Char) :=
  let (sign, cs1) : ℚ × List Char :=
    match cs with
    | '+' :: r => (1, r)
    | '-' :: r => (-1, r)
    | _ => (1, cs)
  let d1 := cs1.takeWhile Char.isDigit
  let cs2 := cs1.drop d1.length
  match cs2 with
  | '.' :: cs3 =>
    let d2 := cs3.takeWhile Char.isDigit
    if d2.isEmpty then
      if d1.isEmpty then none else some (decVal sign d1 [], cs2)
    else some (decVal sign d1 d2, cs3.drop d2.length)
  | _ => if d1.isEmpty then none else some (decVal sign d1 [], cs2)

/-- `re.search('C([-+]?\d*\.?\d+)', line)` for a parameter letter `C`:
first position whose letter is `C` and is followed by a numeral. -/
def searchVal (c : Char) : List Char → Option ℚ
  | [] => none
  | a :: rest =>
    if a == c then
      match numAt rest with
      | some (q, _) => some q
      | none => searchVal c rest
    else searchVal c rest

/-- `re.search(r'G1 X([-+]?\d*\.?\d+) Y([-+]?\d*\.?\d+)', line)`
(source line 236). -/
def g1xyScan : List Char → Option (ℚ × ℚ)
  | [] => none
  | c :: rest =>
    if chBegins "G1 X".toList (c :: rest) then
      match numAt ((c :: rest).drop 4) with
      | some (x, cs1) =>
        if chBegins " Y".toList cs1 then
          match numAt (cs1.drop 2) with
          | some (y, _) => some (x, y)
          | none => g1xyScan rest
        else g1xyScan rest
      | none => g1xyScan rest
    else g1xyScan rest

/-! ## The splicer (source lines 443-524)

The splicer re-scans the original lines with a cursor `i` and the running
layer index, splicing the synthesized blocks (`zigzag_segments`, modelled as
a function from layer index to block list: every key a `defaultdict(list)`
ever receives holds a non-empty list, so presence of pending blocks is
`segs layer ≠ []`) in place of internal-perimeter regions.  The scan for
`next_travel_move` / `next_external_perimeter` (lines 479-493) only feeds the
log and is omitted.  The loop index `i` strictly increases each iteration, so
`lines.length` iterations always suffice; the embedding uses that as fuel. -/

/-- A line at which the skip-forward loop (source lines 504-511) stops. -/
def stopLine (l : String) : Bool :=
  strHas l ";TYPE:External perimeter" ||
    (strHas l ";TYPE:" && !strHas l ";TYPE:Perimeter")

/-- Fuel-indexed body of the skip-forward scan; the fuel only pads the
recursion and `lines.length` of it always suffices. -/
def skipGo (lines : List String) : ℕ → ℕ → ℕ
  | 0, _ => lines.length
  | fuel + 1, j =>
    if h : j < lines.length then
      if stopLine (lines.get ⟨j, h⟩) then j else skipGo lines fuel (j + 1)
    else lines.length

/-- The skip-forward scan after splicing (source lines 501-514): starting at
`j`, find the first stop line and return the next value of the loop cursor
(`j` itself: the code sets `i = j - 1` and then increments); when no stop line
exists return `lines.length` (the code sets `i = len(lines) - 1` and then
increments, ending the loop). -/
def skipScan (lines : List String) (j : ℕ) : ℕ :=
  skipGo lines lines.length j

/-- Wrap each pending block in the sentinel comment lines and concatenate
(source lines 496-499). -/
def wrapBlocks (blocks : List (List String)) : List String :=
  (blocks.map fun z =>
    ";ZIGZAG_PERIMETER_REPLACEMENT\n" :: z ++ [";END_ZIGZAG_PERIMETER\n"]).flatten

/-- One run of the splicer's `while i < len(lines)` loop (source lines
456-524) from cursor `i` with current layer `cl`, returning the lines it
emits.  A `;LAYER:`-containing line is emitted only inside the successful
regex match (source lines 461-465). -/
def spliceGo (lines : List String) (segs : ℕ → List (List String)) :
    ℕ → ℕ → ℕ → List String
  | 0, _, _ => []
  | fuel + 1, i, cl =>
    if h : i < lines.length then
      let line := lines.get ⟨i, h⟩
      if strHas line ";LAYER:" then
        match layerScan line.toList with
        | some n => line :: spliceGo lines segs fuel (i + 1) n
        | none => spliceGo lines segs fuel (i + 1) cl
      else if strHas line ";LAYER_CHANGE" then
        line :: spliceGo lines segs fuel (i + 1) (cl + 1)
      else if strHas line ";TYPE:Perimeter" || strHas line ";TYPE:Inner wall" then
        if (segs cl).isEmpty then
          line :: spliceGo lines segs fuel (i + 1) cl
        else
          line :: (wrapBlocks (segs cl) ++ spliceGo lines segs fuel (skipScan lines (i + 1)) cl)
      else
        line :: spliceGo lines segs fuel (i + 1) cl
    else []

/-- The splicer's full output (the `layers_with_zigzags > 0` path of source
lines 455-524). -/
def spliceOutput (lines : List String) (segs : ℕ → List (List String)) : List String :=
  spliceGo lines segs lines.length 0 0

/-- The original lines the splicer scans and keeps: same cursor trajectory as
`spliceGo`, collecting each scanned line except `;LAYER:`-containing lines
whose layer number does not parse (which the splicer drops) and the lines
inside a skipped internal-perimeter region (which it never scans). -/
def keptScanned (lines : List String) (segs : ℕ → List (List String)) :
    ℕ → ℕ → ℕ → List String
  | 0, _, _ => []
  | fuel + 1, i, cl =>
    if h : i < lines.length then
      let line := lines.get ⟨i, h⟩
      if strHas line ";LAYER:" then
        match layerScan line.toList with
        | some n => line :: keptScanned lines segs fuel (i + 1) n
        | none => keptScanned lines segs fuel (i + 1) cl
      else if strHas line ";LAYER_CHANGE" then
        line :: keptScanned lines segs fuel (i + 1) (cl + 1)
      else if strHas line ";TYPE:Perimeter" || strHas line ";TYPE:Inner wall" then
        if (segs cl).isEmpty then
          line :: keptScanned lines segs fuel (i + 1) cl
        else
          line :: keptScanned lines segs fuel (skipScan lines (i + 1)) cl
      else
        line :: keptScanned lines segs fuel (i + 1) cl
    else []

/-- Scanned-and-kept lines over the whole input. -/
def keptOutput (lines : List String) (segs : ℕ → List (List String)) : List String :=
  keptScanned lines segs lines.length 0 0

/-! ## Concrete splicer inputs -/

/-- A stream with no internal-perimeter marker whose first line contains
`;LAYER:` but no parsable layer number. -/
def c1Lines : List String := [";LAYER:x\n", "tail\n"]

/-- Pending blocks for `c1Lines` (layer 0 has one synthesized block, so the
splicing path of the code is active). -/
def c1Segs : ℕ → List (List String) := fun _ => [["B\n"]]

/-- A stream in which layer 0 has two internal-perimeter regions separated by
another feature type. -/
def c6Lines : List String :=
  [";TYPE:Perimeter\n", "G1 X0 Y0 E1\n", ";TYPE:Infill\n", ";TYPE:Perimeter\n", "x\n"]

/-- A single pending block (containing the single line `"ZZ\n"`) for layer 0
of `c6Lines`. -/
def c6Segs : ℕ → List (List String) := fun l => if l = 0 then [["ZZ\n"]] else []

/-- A stream whose internal-perimeter marker is followed only by lines with
no other feature-type marker. -/
def c10Lines : List String := [";TYPE:Perimeter\n", "tail\n"]

/-- One pending block for layer 0 of `c10Lines`. -/
def c10Segs : ℕ → List (List String) := fun _ => [["B\n"]]

/-! ## Data model (source lines 35-52)

`float` coordinates are idealized as exact reals; numeric text parses exactly
into `ℚ` and is carried as `ℝ`.  The `line` text of a `GCodeMove` is either
the original source line (`orig`) or — for points synthesized by the
resampler — a regenerated `G1 X{x:.3f} Y{y:.3f}[ E{e:.5f}]` line, modelled
symbolically as `synth x y e` (fixed-decimal float formatting itself is not
re-implemented). -/

inductive WallType where
  | internal
  | external
deriving DecidableEq

/-- The text of a move's line: original source text, or a synthesized
`G1 X.. Y..[ E..]` line produced by the resampler (source line 592). -/
inductive SrcLine where
  | orig (s : String)
  | synth (x y : ℝ) (e : Option ℝ)

/-- `class GCodeMove` (source lines 43-52). -/
structure GCodeMove where
  line : SrcLine
  x : ℝ
  y : ℝ
  e : Option ℝ
  is_travel : Bool

instance : Inhabited GCodeMove := ⟨⟨.orig "", 0, 0, none, false⟩⟩

/-- `class Point` (source lines 35-41). -/
structure Point where
  x : ℝ
  y : ℝ

/-- `Point.distance` (source line 41): Euclidean distance. -/
noncomputable def Point.distance (p q : Point) : ℝ :=
  Real.sqrt ((p.x - q.x) ^ 2 + (p.y - q.y) ^ 2)

/-- `GCodeMove.get_point` (source line 51). -/
def GCodeMove.get_point (m : GCodeMove) : Point := ⟨m.x, m.y⟩

/-- `parse_gcode` (source lines 54-71): X and Y numerals are required, the E
numeral is optional and its absence marks a travel move.  (The `try/except`
cannot fire: `float` is only applied to matched numerals.) -/
noncomputable def parse_gcode (line : String) : Option GCodeMove :=
  match searchVal 'X' line.toList, searchVal 'Y' line.toList with
  | some qx, some qy =>
    let e := searchVal 'E' line.toList
    some ⟨.orig line, (qx : ℝ), (qy : ℝ), e.map (fun q => (q : ℝ)), e.isNone⟩
  | _, _ => none

/-! ## The wall extractor (source lines 93-260) -/

/-- The extractor's scan state (source lines 94-101). -/
structure ExtractState where
  current_layer : ℕ
  layer_walls : ℕ → List (List GCodeMove)
  current_wall : List GCodeMove
  current_wall_type : Option WallType
  inside_perimeter_block : Bool
  perimeter_block_count : ℕ
  last_xy_move : Option GCodeMove

/-- `layer_walls.setdefault(layer, []).append(wall)`. -/
def updateWalls (walls : ℕ → List (List GCodeMove)) (layer : ℕ)
    (w : List GCodeMove) : ℕ → List (List GCodeMove) :=
  fun k => if k = layer then walls k ++ [w] else walls k

/-- Layer tracking (source lines 122-132). -/
def layerStep (s : ExtractState) (line : String) : ExtractState :=
  if strHas line ";LAYER:" = true then
    match layerScan line.toList with
    | some n => { s with current_layer := n }
    | none => s
  else if strHas line ";LAYER_CHANGE" = true then
    { s with current_layer := s.current_layer + 1 }
  else s

/-- The save made at a perimeter-type marker (source lines 137-139, 149-151,
161-163): the open wall is kept only when it has more than 5 points. -/
def saveWallGT5 (s : ExtractState) : ℕ → List (List GCodeMove) :=
  if s.current_wall.isEmpty = false ∧ s.current_wall_type = some WallType.internal ∧
      s.inside_perimeter_block = true ∧ s.current_wall.length > 5 then
    updateWalls s.layer_walls s.current_layer s.current_wall
  else s.layer_walls

/-- Perimeter-type markers (source lines 135-168). -/
def typeStep (s : ExtractState) (line : String) : ExtractState :=
  if strHas line ";TYPE:External perimeter" = true ∨ strHas line ";TYPE:Outer wall" = true then
    { s with layer_walls := saveWallGT5 s, current_wall_type := some WallType.external,
             inside_perimeter_block := false, current_wall := [] }
  else if strHas line ";TYPE:Perimeter" = true ∨ strHas line ";TYPE:Inner wall" = true then
    { s with layer_walls := saveWallGT5 s, current_wall_type := some WallType.internal,
             inside_perimeter_block := false, current_wall := [] }
  else if strHas line ";TYPE:" = true then
    { s with layer_walls := saveWallGT5 s, current_wall_type := none,
             inside_perimeter_block := false, current_wall := [] }
  else s

/-- Extruding-motion grouping and block-end detection (source lines 171-230). -/
noncomputable def motionStep (s : ExtractState) (line : String) : ExtractState :=
  if s.current_wall_type = some WallType.internal ∧ strStarts line "G1" = true ∧
      strHasChar line 'X' = true ∧ strHasChar line 'Y' = true ∧
      strHasChar line 'E' = true then
    let s1 :=
      if s.inside_perimeter_block then s
      else
        { s with perimeter_block_count := s.perimeter_block_count + 1,
                 inside_perimeter_block := true,
                 current_wall :=
                   match s.last_xy_move with
                   | some m => if m.is_travel then [m] else []
                   | none => [] }
    match parse_gcode line with
    | some mv => { s1 with current_wall := s1.current_wall ++ [mv] }
    | none => s1
  else if s.inside_perimeter_block = true ∧
      (strStarts line "M" = true ∨
        (strStarts line "G1 " = true ∧ strHas line " E" = false) ∨
        strStarts line ";" = true) then
    if strStarts line "M73 " = true then s
    else if s.current_wall.isEmpty = false ∧
        s.current_wall_type = some WallType.internal then
      let s2 := { s with
        layer_walls := updateWalls s.layer_walls s.current_layer s.current_wall,
        current_wall := [], inside_perimeter_block := false }
      if strStarts line ";TYPE:" = true then
        if strHas line ";TYPE:External perimeter" = true ∨
            strHas line ";TYPE:Outer wall" = true then
          { s2 with current_wall_type := some WallType.external }
        else if strHas line ";TYPE:Perimeter" = true ∨
            strHas line ";TYPE:Inner wall" = true then
          { s2 with current_wall_type := some WallType.internal }
        else { s2 with current_wall_type := none }
      else s2
    else s
  else s

/-- Tracking of the most recent `G1 X.. Y..` move (source lines 232-248). -/
noncomputable def lastXYStep (s : ExtractState) (line : String) : ExtractState :=
  if strStarts line "G1" = true ∧ strHasChar line 'X' = true ∧
      strHasChar line 'Y' = true then
    match g1xyScan line.toList with
    | some (qx, qy) =>
      let is_travel : Bool := !strHasChar line 'E'
      let e_val : Option ℚ := if is_travel then none else searchVal 'E' line.toList
      let mv : GCodeMove :=
        ⟨.orig line, (qx : ℝ), (qy : ℝ), e_val.map (fun q => (q : ℝ)), is_travel⟩
      { s with last_xy_move := some mv }
    | none => s
  else s

/-- One line of the extractor's scan (source lines 119-248): layer chain,
type chain, motion chain, then last-XY tracking, in source order. -/
noncomputable def processLine (s : ExtractState) (line : String) : ExtractState :=
  lastXYStep (motionStep (typeStep (layerStep s line) line) line) line

/-- The extractor's initial state (source lines 96-101). -/
def initState : ExtractState := ⟨0, fun _ => [], [], none, false, 0, none⟩

/-- The extractor's scan over the whole stream. -/
noncomputable def extractSteps (lines : List String) : ExtractState :=
  lines.foldl processLine initState

/-- The end-of-stream save of a still-open wall (source lines 257-260). -/
noncomputable def finalSave (s : ExtractState) : ExtractState :=
  if s.current_wall.isEmpty = false ∧ s.current_wall_type = some WallType.internal ∧
      s.inside_perimeter_block = true then
    { s with layer_walls := updateWalls s.layer_walls s.current_layer s.current_wall }
  else s

/-- The full extractor including the end-of-stream save. -/
noncomputable def extract (lines : List String) : ExtractState :=
  finalSave (extractSteps lines)

/-- Every non-leading move of the wall that is flagged as a travel move comes
from a source line whose `E` field has no parsable numeral. -/
def wallMovesOk (w : List GCodeMove) : Prop :=
  ∀ m ∈ w.drop 1, m.is_travel = true →
    ∀ str, m.line = SrcLine.orig str → searchVal 'E' str.toList = none

/-- Invariant of the extractor state: the open wall and all finalized walls
satisfy `wallMovesOk`. -/
def stateWallsOk (s : ExtractState) : Prop :=
  wallMovesOk s.current_wall ∧ ∀ layer w, w ∈ s.layer_walls layer → wallMovesOk w

/-! ## Concrete extractor inputs -/

/-- An internal section whose first motion-shaped line has an unparsable `X`
field. -/
def c7Lines : List String := [";TYPE:Perimeter\n", "G1 XABC Y1.0 E1.0\n"]

/-- The malformed motion line of `c7Lines`. -/
def c7Bad : String := "G1 XABC Y1.0 E1.0\n"

/-- A state in the middle of an open internal block holding one parsed move. -/
noncomputable def c7State : ExtractState :=
  ⟨0, fun _ => [], [⟨.orig "G1 X1 Y1 E1\n", 1, 1, some 1, false⟩],
    some WallType.internal, true, 1, none⟩

/-- A one-move internal wall interrupted by an external-perimeter marker. -/
def c8Lines : List String :=
  [";TYPE:Perimeter\n", "G1 X1.0 Y1.0 E1.0\n", ";TYPE:External perimeter\n"]

/-- A state whose open internal wall has exactly one move, about to see a
type marker. -/
noncomputable def c8State : ExtractState :=
  ⟨0, fun _ => [], [⟨.orig "G1 X1.0 Y1.0 E1.0\n", 1, 1, some 1, false⟩],
    some WallType.internal, true, 1, none⟩

/-- An internal block whose middle motion line has an unparsable `E` field. -/
def c9Lines : List String :=
  [";TYPE:Perimeter\n", "G1 X1.0 Y2.0 E1.0\n", "G1 X3.0 Y4.0 EABC\n",
    "G1 X5.0 Y6.0 E2.0\n", "; end\n"]

/-- The single wall the extractor builds from `c9Lines`. -/
noncomputable def c9Wall : List GCodeMove := ((extract c9Lines).layer_walls 0).headI

/-- The second (non-leading) move of that wall. -/
noncomputable def c9Move : GCodeMove := (c9Wall.drop 1).headI

/-! ## Geometry utilities (source lines 546-610) -/

/-- `calculate_wall_length` (source lines 546-557): sum of consecutive
point-to-point distances; 0 for walls of fewer than 2 points. -/
noncomputable def calculate_wall_length : List GCodeMove → ℝ
  | a :: b :: rest =>
    Point.distance a.get_point b.get_point + calculate_wall_length (b :: rest)
  | _ => 0

/-- Python truthiness of `new_e` in the f-string at source line 592: the
`E{new_e:.5f}` field is present only when `new_e` is neither `None` nor 0. -/
noncomputable def lineE (e : Option ℝ) : Option ℝ :=
  match e with
  | some v => if v = 0 then none else some v
  | none => none

/-- The inner `while` of `evenly_distribute_points` (source lines 578-602)
with explicit fuel: the source loop terminates whenever the wall's total
length is positive (each pass consumes one full `target_distance` of arc),
and `num_points` of fuel always suffices there; when the total length is 0
Python instead raises `ZeroDivisionError`, aborting the whole run, which the
fuel cut-off stands in for.  Returns the accumulated result list and the
final `current_distance` and `target_distance`. -/
noncomputable def edpWhile (p2 : Point) (e1 e2 : Option ℝ) (segment_length : ℝ) :
    ℕ → Point → ℝ → ℝ → ℝ → List GCodeMove → List GCodeMove × ℝ × ℝ
  | 0, _, _, current, target, acc => (acc, current, target)
  | fuel + 1, p1, segment_dist, current, target, acc =>
    if current + segment_dist ≥ target then
      let frac := (target - current) / segment_dist
      let new_x := p1.x + frac * (p2.x - p1.x)
      let new_y := p1.y + frac * (p2.y - p1.y)
      let new_e : Option ℝ :=
        match e1, e2 with
        | some a, some b => some (a + frac * (b - a))
        | _, _ => none
      let new_point : GCodeMove :=
        ⟨.synth new_x new_y (lineE new_e), new_x, new_y, new_e, false⟩
      let p1' : Point := ⟨new_x, new_y⟩
      edpWhile p2 e1 e2 segment_length fuel p1' (p1'.distance p2) 0 segment_length
        (acc ++ [new_point])
    else (acc, current, target)

/-- The `for` loop of `evenly_distribute_points` (source lines 571-604) over
consecutive wall segments, threading `current_distance` / `target_distance`
and the accumulated result. -/
noncomputable def edpFor (segment_length : ℝ) (fuel : ℕ) :
    List GCodeMove → ℝ → ℝ → List GCodeMove → List GCodeMove
  | a :: b :: rest, current, target, acc =>
    let p1 := a.get_point
    let p2 := b.get_point
    let segment_dist := p1.distance p2
    if current + segment_dist ≥ target then
      match edpWhile p2 a.e b.e segment_length fuel p1 segment_dist current target acc with
      | (acc', cur', tgt') => edpFor segment_length fuel (b :: rest) cur' tgt' acc'
    else
      edpFor segment_length fuel (b :: rest) (current + segment_dist) target acc
  | _, _, _, acc => acc

/-- `evenly_distribute_points` (source lines 559-610): walls of fewer than 2
points or `num_points < 2` are returned unchanged; otherwise points are
inserted by arc length starting from the original first point, and the
original last point is appended only when fewer than `num_points` points
were produced. -/
noncomputable def evenly_distribute_points (wall : List GCodeMove)
    (num_points : ℕ) : List GCodeMove :=
  if wall.length < 2 ∨ num_points < 2 then wall
  else
    let total_length := calculate_wall_length wall
    let segment_length := total_length / ((num_points - 1 : ℕ) : ℝ)
    let result := edpFor segment_length num_points wall 0 segment_length [wall.headI]
    if result.length < num_points then result ++ [wall.getLastI] else result

/-! ## Pairing and zigzag synthesis (source lines 307-442)

Synthesized block lines are modelled structurally: `src` re-emits an original
move line, `ztravel x y tag` stands for `G1 X{x:.3f} Y{y:.3f} F9000 ; tag`
and `zext x y e tag` for `G1 X{x:.3f} Y{y:.3f} E{e:.5f} ; tag` (fixed-decimal
float formatting is not re-implemented). -/

/-- One line of a synthesized replacement block. -/
inductive OutLine where
  | src (l : SrcLine)
  | ztravel (x y : ℝ) (tag : String)
  | zext (x y e : ℝ) (tag : String)

/-- `extrusion_rate` (source line 392). -/
noncomputable def extrusion_rate : ℝ := 0.033

/-- The zigzag generation loop (source lines 375-422): `m` is
`min(len(wall1_points), len(wall2_points), num_segments)` and iteration `j`
runs while `j < m - 1`, emitting the cross-connect extruding move (whose E is
`distance * extrusion_rate`, source line 393) and — while `j < m - 2` — the
along-wall connector move (whose E is `last_e + distance * extrusion_rate`,
source line 419).  Out-of-range lookups fall back to the wall's last point
(source lines 405-415).  The fuel only pads the recursion; `m` always
suffices. -/
noncomputable def zigzagGo (w1p w2p : List GCodeMove) (m : ℕ) :
    ℕ → ℕ → ℝ → List OutLine
  | 0, _, _ => []
  | fuel + 1, j, _last_e =>
    -- the incoming `last_e` is dead: the source overwrites it (line 397)
    -- before every use, so the connector's `last_e` is the crossing's `new_e`
    if j < m - 1 then
      let start_point := if j % 2 = 0 then w1p.getD j default else w2p.getD j default
      let end_point := if j % 2 = 0 then w2p.getD j default else w1p.getD j default
      let distance := start_point.get_point.distance end_point.get_point
      let new_e := distance * extrusion_rate
      let seg := OutLine.zext end_point.x end_point.y new_e s!"Zigzag segment {j}"
      if j < m - 2 then
        let next_idx := j + 1
        let next_point :=
          if (j + 1) % 2 = 0 then
            (if next_idx < w1p.length then w1p.getD next_idx default else w1p.getLastI)
          else
            (if next_idx < w2p.length then w2p.getD next_idx default else w2p.getLastI)
        let distance2 := end_point.get_point.distance next_point.get_point
        let new_e2 := new_e + distance2 * extrusion_rate
        let conn := OutLine.zext next_point.x next_point.y new_e2 s!"Zigzag connector {j}"
        seg :: conn :: zigzagGo w1p w2p m fuel (j + 1) new_e2
      else
        seg :: zigzagGo w1p w2p m fuel (j + 1) new_e
    else []

/-- Build one zigzag replacement block (source lines 359-431): leading travel
move to the first resampled point, initial `last_e` selection (source lines
366-372), the zigzag loop, and the final travel move to the last point of the
second original wall (source lines 426-430). -/
noncomputable def buildZigzag (w1p w2p : List GCodeMove) (num_segments : ℕ)
    (wall2 : List GCodeMove) : List OutLine :=
  let m := min (min w1p.length w2p.length) num_segments
  let last_e : ℝ :=
    match (w1p.headI).e with
    | some e => e
    | none =>
      match (w2p.headI).e with
      | some e => e
      | none => 1.5
  let first := OutLine.ztravel (w1p.headI).x (w1p.headI).y "Start zigzag"
  let body := zigzagGo w1p w2p m m 0 last_e
  let fin :=
    if wall2.length > 0 then
      [OutLine.ztravel (wall2.getLastI).x (wall2.getLastI).y
        "Travel to end position for next operation"]
    else []
  first :: body ++ fin

/-- Python `int()` on a float: truncation toward zero. -/
noncomputable def pyInt (x : ℝ) : ℤ := if 0 ≤ x then ⌊x⌋ else ⌈x⌉

/-- The segment count of one zigzagged pair (source lines 345-351):
`max(20, int(avg_wall_length / zigzag_length))`. -/
noncomputable def pair_num_segments (wall1 wall2 : List GCodeMove)
    (zigzag_length : ℝ) : ℤ :=
  max 20 (pyInt (((calculate_wall_length wall1 + calculate_wall_length wall2) / 2) /
    zigzag_length))

/-- The segment count as the specification words it —
`max(20, round(avg(L1, L2) / zigzag_length))` — for comparison with
`pair_num_segments`, which embeds the code's truncating `int()`. -/
noncomputable def spec_num_segments (wall1 wall2 : List GCodeMove)
    (zigzag_length : ℝ) : ℤ :=
  max 20 (round (((calculate_wall_length wall1 + calculate_wall_length wall2) / 2) /
    zigzag_length))

/-- The pass-through block of a wall's original lines (source lines 318-321,
334-339, 438-441). -/
def passBlock (wall : List GCodeMove) : List OutLine :=
  wall.map fun mv => OutLine.src mv.line

/-- Processing of one wall pair (source lines 327-433): pairs with a wall of
fewer than 3 points pass through verbatim; otherwise both walls are resampled
to the common segment count and a zigzag block is synthesized. -/
noncomputable def processPair (wall1 wall2 : List GCodeMove)
    (zigzag_length : ℝ) : List OutLine :=
  if wall1.length < 3 ∨ wall2.length < 3 then
    passBlock wall1 ++ passBlock wall2
  else
    let num_segments := (pair_num_segments wall1 wall2 zigzag_length).toNat
    let wall1_points := evenly_distribute_points wall1 num_segments
    let wall2_points := evenly_distribute_points wall2 num_segments
    buildZigzag wall1_points wall2_points num_segments wall2

/-- The pairing walk `for i in range(start_index, len(walls), 2)` (source
lines 325-442), fuel-padded (`walls.length` of fuel always suffices since the
index advances by 2): a full pair is processed, a trailing unpaired wall is
passed through. -/
noncomputable def pairGo (walls : List (List GCodeMove)) (zigzag_length : ℝ) :
    ℕ → ℕ → List (List OutLine)
  | 0, _ => []
  | fuel + 1, i =>
    if i + 1 < walls.length then
      processPair (walls.getD i []) (walls.getD (i + 1) []) zigzag_length ::
        pairGo walls zigzag_length fuel (i + 2)
    else if i < walls.length then [passBlock (walls.getD i [])]
    else []

/-- The pairing walk from a start index. -/
noncomputable def pairLoop (walls : List (List GCodeMove)) (zigzag_length : ℝ)
    (i : ℕ) : List (List OutLine) :=
  pairGo walls zigzag_length walls.length i

/-- The brick-stagger starting index (source line 312): 1 on odd layers,
0 on even layers. -/
def start_index (layer : ℕ) : ℕ := if layer % 2 = 1 then 1 else 0

/-- Per-layer synthesis (source lines 307-442): on odd layers the first wall
is emitted unpaired as a pass-through of its original lines (source lines
315-322), then walls are walked in pairs from the stagger offset. -/
noncomputable def createZigzags (layer : ℕ) (walls : List (List GCodeMove))
    (zigzag_length : ℝ) : List (List OutLine) :=
  let pre :=
    if layer % 2 = 1 ∧ 0 < walls.length then [passBlock (walls.getD 0 [])]
    else []
  pre ++ pairLoop walls zigzag_length (start_index layer)

/-- The `E` values of the extruding moves of a synthesized block. -/
def extrudeEs (b : List OutLine) : List ℝ :=
  b.filterMap fun l =>
    match l with
    | OutLine.zext _ _ e _ => some e
    | _ => none

/-! ## Concrete synthesizer inputs -/

/-- A concrete extruding move for building walls. -/
def mkMove (x y : ℝ) (e : Option ℝ) (s : String) : GCodeMove := ⟨.orig s, x, y, e, false⟩

/-- A 2-point wall of length 2 along the x axis. -/
noncomputable def c3Wall : List GCodeMove :=
  [mkMove 0 0 (some 1) "A\n", mkMove 2 0 (some 1) "B\n"]

/-- A 3-point wall of length 6 along the x axis. -/
noncomputable def ex3Wall : List GCodeMove :=
  [mkMove 0 0 none "P\n", mkMove 3 0 none "Q\n", mkMove 6 0 none "R\n"]

/-- A 3-point wall of length 30.6 along the x axis. -/
noncomputable def c4Wall : List GCodeMove :=
  [mkMove 0 0 none "a\n", mkMove 15 0 none "b\n", mkMove 30.6 0 none "c\n"]

/-- A 3-point wall of length 10 along the x axis. -/
noncomputable def ex10Wall : List GCodeMove :=
  [mkMove 0 0 none "d\n", mkMove 5 0 none "e\n", mkMove 10 0 none "f\n"]

/-- Resampled points of the first wall of the C2 configuration: collinear
along `y = 0`. -/
noncomputable def c2w1p : List GCodeMove :=
  [mkMove 0 0 none "", mkMove 1 0 none "", mkMove 2 0 none ""]

/-- Resampled points of the second wall of the C2 configuration: collinear
along `y = 5`, so the two walls are parallel and 5 apart. -/
noncomputable def c2w2p : List GCodeMove :=
  [mkMove 0 5 none "", mkMove 1 5 none "", mkMove 2 5 none ""]

/-- A one-move wall. -/
noncomputable def c5Wall : List GCodeMove := [mkMove 0 0 (some 1) "W\n"]

/-! ## Splicer lemmas and claim theorems -/

theorem spliceGo_of_le (lines : List String) (segs : ℕ → List (List String))
    (fuel i cl : ℕ) (h : lines.length ≤ i) : spliceGo lines segs fuel i cl = [] := by
  cases fuel with
  | zero => rfl
  | succ n => simp only [spliceGo, dif_neg (by omega : ¬ i < lines.length)]

theorem skipGo_eq_length (lines : List String) :
    ∀ fuel i, (∀ j (hj : j < lines.length), i ≤ j → stopLine (lines.get ⟨j, hj⟩) = false) →
      skipGo lines fuel i = lines.length := by
  intro fuel
  induction fuel with
  | zero => intro i _; rfl
  | succ n ih =>
    intro i hstop
    unfold skipGo
    split
    · next h =>
      rw [hstop i h le_rfl]
      simp only [Bool.false_eq_true, if_false]
      exact ih (i + 1) fun j hj hij => hstop j hj (by omega)
    · rfl

theorem skipScan_eq_length (lines : List String) (i : ℕ)
    (hstop : ∀ j (hj : j < lines.length), i ≤ j → stopLine (lines.get ⟨j, hj⟩) = false) :
    skipScan lines i = lines.length :=
  skipGo_eq_length lines lines.length i hstop

theorem keptScanned_sublist (lines : List String) (segs : ℕ → List (List String)) :
    ∀ fuel i cl, (keptScanned lines segs fuel i cl).Sublist (spliceGo lines segs fuel i cl) := by
  intro fuel
  induction fuel with
  | zero => intro i cl; exact List.Sublist.refl []
  | succ n ih =>
    intro i cl
    by_cases h : i < lines.length
    · simp only [keptScanned, spliceGo, dif_pos h]
      by_cases h1 : strHas (lines.get ⟨i, h⟩) ";LAYER:"
      · cases hls : layerScan (lines.get ⟨i, h⟩).toList with
        | some m => simp only [h1, hls, if_true]; exact (ih _ _).cons₂ _
        | none => simp only [h1, hls, if_true]; exact ih _ _
      · simp only [h1]
        by_cases h2 : strHas (lines.get ⟨i, h⟩) ";LAYER_CHANGE"
        · simp only [h2, if_true, Bool.false_eq_true, if_false]
          exact (ih _ _).cons₂ _
        · simp only [h2, Bool.false_eq_true, if_false]
          by_cases h3 : (strHas (lines.get ⟨i, h⟩) ";TYPE:Perimeter" ||
              strHas (lines.get ⟨i, h⟩) ";TYPE:Inner wall") = true
          · simp only [h3, if_true]
            by_cases h4 : (segs cl).isEmpty
            · simp only [h4, if_true]; exact (ih _ _).cons₂ _
            · simp only [h4, Bool.false_eq_true, if_false]
              exact ((ih _ _).trans (List.sublist_append_right _ _)).cons₂ _
          · simp only [h3, Bool.false_eq_true, if_false]
            exact (ih _ _).cons₂ _
    · simp only [keptScanned, spliceGo, dif_neg h]
      exact List.Sublist.refl []

/-- C1 counterexample: in `c1Lines` the line `";LAYER:x\n"` is not part of
any spliced internal-perimeter region (the stream contains no
internal-perimeter marker at all, so nothing is spliced), yet it does not
appear in the splicer's output: the code appends a `;LAYER:`-containing line
only when the layer-number regex matches (source lines 461-465). -/
theorem splice_layer_line_dropped :
    ";LAYER:x\n" ∈ c1Lines ∧
      (∀ l ∈ c1Lines, strHas l ";TYPE:Perimeter" = false ∧
        strHas l ";TYPE:Inner wall" = false) ∧
      ";LAYER:x\n" ∉ spliceOutput c1Lines c1Segs := by
  decide

/-- C1 (amended): every original line the splicer scans and keeps — that is,
every line on the scan trajectory except `;LAYER:`-containing lines without a
parsable layer number (dropped) and lines inside a skipped internal-perimeter
region (never scanned) — appears in the splicer's output unchanged and in
original order; in particular every scanned `;LAYER:<digits>` marker line is
passed through byte-identical. -/
theorem splice_kept_scanned_sublist (lines : List String)
    (segs : ℕ → List (List String)) :
    (keptOutput lines segs).Sublist (spliceOutput lines segs) :=
  keptScanned_sublist lines segs lines.length 0 0

/-- C6: the splicer does not consume pending blocks (source line 477 copies
the list and never pops it), so on `c6Lines` — where layer 0 has two
internal-perimeter regions — the single synthesized block line `"ZZ\n"` is
emitted twice, contradicting "each synthesized block is emitted at most
once". -/
theorem splice_reemits_blocks_twice :
    (spliceOutput c6Lines c6Segs).count "ZZ\n" = 2 ∧
      c6Segs 0 = [["ZZ\n"]] ∧ (∀ l ∈ c6Lines, l ≠ "ZZ\n") := by
  decide

/-- C10: when an internal-perimeter marker with pending blocks is reached and
no later line is a stop line (a `;TYPE:` marker other than
`;TYPE:Perimeter`), the splicer emits the marker and the wrapped blocks and
advances its cursor past the end of the input, omitting every remaining
original line (source lines 500-514). -/
theorem splice_tail_omitted_when_no_stop
    (lines : List String) (segs : ℕ → List (List String)) (fuel i cl : ℕ)
    (h : i < lines.length)
    (hm : (strHas (lines.get ⟨i, h⟩) ";TYPE:Perimeter" ||
        strHas (lines.get ⟨i, h⟩) ";TYPE:Inner wall") = true)
    (hL : strHas (lines.get ⟨i, h⟩) ";LAYER:" = false)
    (hLC : strHas (lines.get ⟨i, h⟩) ";LAYER_CHANGE" = false)
    (hseg : (segs cl).isEmpty = false)
    (hstop : ∀ j (hj : j < lines.length), i < j → stopLine (lines.get ⟨j, hj⟩) = false) :
    spliceGo lines segs (fuel + 1) i cl = lines.get ⟨i, h⟩ :: wrapBlocks (segs cl) := by
  have hskip : skipScan lines (i + 1) = lines.length :=
    skipScan_eq_length lines (i + 1) fun j hj hij => hstop j hj (by omega)
  simp only [spliceGo, dif_pos h, hL, hLC, hm, hseg, hskip, Bool.false_eq_true, if_false,
    if_true, spliceGo_of_le lines segs fuel lines.length cl le_rfl, List.append_nil]

/-- Witness for C10 at a concrete stream. -/
theorem splice_tail_omitted_when_no_stop_witness :
    spliceGo c10Lines c10Segs 2 0 0 =
      [";TYPE:Perimeter\n", ";ZIGZAG_PERIMETER_REPLACEMENT\n", "B\n",
        ";END_ZIGZAG_PERIMETER\n"] := by
  have h := splice_tail_omitted_when_no_stop c10Lines c10Segs 1 0 0 (by decide)
    (by decide) (by decide) (by decide) (by decide)
    (by intro j hj hij
        have h2 : j < 2 := by simpa [c10Lines] using hj
        have hj1 : j = 1 := by omega
        subst hj1
        show stopLine "tail\n" = false
        decide)
  simpa [c10Lines, c10Segs, wrapBlocks] using h

/-! ## Extractor lemmas and claim theorems -/

theorem wallMovesOk_nil : wallMovesOk [] := by
  intro m hm
  simp at hm

theorem wallMovesOk_single (mv : GCodeMove) : wallMovesOk [mv] := by
  intro m hm
  simp at hm

theorem wallMovesOk_append (w : List GCodeMove) (mv : GCodeMove)
    (hw : wallMovesOk w)
    (hmv : mv.is_travel = true → ∀ str, mv.line = SrcLine.orig str →
      searchVal 'E' str.toList = none) :
    wallMovesOk (w ++ [mv]) := by
  intro m hm ht str hline
  rcases w with _ | ⟨a, rest⟩
  · simp at hm
  · have hm' : m ∈ rest ++ [mv] := by simpa using hm
    rcases List.mem_append.1 hm' with h1 | h1
    · exact hw m (by simpa using h1) ht str hline
    · have : m = mv := by simpa using h1
      subst this
      exact hmv ht str hline

theorem parse_gcode_some (line : String) (mv : GCodeMove)
    (h : parse_gcode line = some mv) :
    mv.is_travel = (searchVal 'E' line.toList).isNone ∧
      mv.line = SrcLine.orig line := by
  unfold parse_gcode at h
  cases hx : searchVal 'X' line.toList with
  | none => rw [hx] at h; simp at h
  | some qx =>
    cases hy : searchVal 'Y' line.toList with
    | none => rw [hx, hy] at h; simp at h
    | some qy =>
      rw [hx, hy] at h
      simp only [Option.some.injEq] at h
      subst h
      exact ⟨rfl, rfl⟩

theorem updateWalls_mem (walls : ℕ → List (List GCodeMove)) (layer : ℕ)
    (w : List GCodeMove) (l : ℕ) (x : List GCodeMove)
    (hx : x ∈ updateWalls walls layer w l) : x ∈ walls l ∨ x = w := by
  unfold updateWalls at hx
  by_cases h : l = layer
  · rw [if_pos h] at hx
    rcases List.mem_append.1 hx with h1 | h1
    · exact Or.inl h1
    · exact Or.inr (by simpa using h1)
  · rw [if_neg h] at hx
    exact Or.inl hx

theorem saveWallGT5_ok (s : ExtractState) (hs : stateWallsOk s) :
    ∀ layer w, w ∈ saveWallGT5 s layer → wallMovesOk w := by
  intro layer w hw
  unfold saveWallGT5 at hw
  split at hw
  · rcases updateWalls_mem _ _ _ _ _ hw with h | h
    · exact hs.2 layer w h
    · subst h; exact hs.1
  · exact hs.2 layer w hw

theorem layerStep_frame (s : ExtractState) (l : String) :
    (layerStep s l).layer_walls = s.layer_walls ∧
      (layerStep s l).current_wall = s.current_wall := by
  unfold layerStep
  split
  · split <;> exact ⟨rfl, rfl⟩
  · split <;> exact ⟨rfl, rfl⟩

theorem lastXYStep_frame (s : ExtractState) (l : String) :
    (lastXYStep s l).layer_walls = s.layer_walls ∧
      (lastXYStep s l).current_wall = s.current_wall := by
  unfold lastXYStep
  split
  · split <;> exact ⟨rfl, rfl⟩
  · exact ⟨rfl, rfl⟩

theorem typeStep_ok (s : ExtractState) (l : String) (hs : stateWallsOk s) :
    stateWallsOk (typeStep s l) := by
  unfold typeStep
  split
  · exact ⟨wallMovesOk_nil, saveWallGT5_ok s hs⟩
  · split
    · exact ⟨wallMovesOk_nil, saveWallGT5_ok s hs⟩
    · split
      · exact ⟨wallMovesOk_nil, saveWallGT5_ok s hs⟩
      · exact hs

theorem startWall_ok (o : Option GCodeMove) :
    wallMovesOk (match o with
      | some m => if m.is_travel then [m] else []
      | none => []) := by
  cases o with
  | none => exact wallMovesOk_nil
  | some m =>
    dsimp only
    split
    · exact wallMovesOk_single m
    · exact wallMovesOk_nil

theorem motionStep_ok (s : ExtractState) (l : String) (hs : stateWallsOk s) :
    stateWallsOk (motionStep s l) := by
  unfold motionStep
  split
  · -- extruding-shaped line in an internal section
    cases hp : parse_gcode l with
    | none =>
      split
      · exact hs
      · exact ⟨startWall_ok s.last_xy_move, fun layer w hw => hs.2 layer w hw⟩
    | some mv =>
      have hpg := parse_gcode_some l mv hp
      have hmv : mv.is_travel = true → ∀ str, mv.line = SrcLine.orig str →
          searchVal 'E' str.toList = none := by
        intro ht str hline
        rw [hpg.2] at hline
        injection hline with hstr
        subst hstr
        rw [ht] at hpg
        exact Option.isNone_iff_eq_none.1 hpg.1.symm
      split
      · exact ⟨wallMovesOk_append _ _ hs.1 hmv, fun layer w hw => hs.2 layer w hw⟩
      · exact ⟨wallMovesOk_append _ _ (startWall_ok s.last_xy_move) hmv,
          fun layer w hw => hs.2 layer w hw⟩
  · split
    · -- block-end detected
      split
      · exact hs
      · split
        · -- the open wall is saved (any length); then the re-typing chain
          have hok : ∀ layer w,
              w ∈ updateWalls s.layer_walls s.current_layer s.current_wall layer →
                wallMovesOk w := by
            intro layer w hw
            rcases updateWalls_mem _ _ _ _ _ hw with h | h
            · exact hs.2 layer w h
            · subst h
              exact hs.1
          split
          · split
            · exact ⟨wallMovesOk_nil, hok⟩
            · split
              · exact ⟨wallMovesOk_nil, hok⟩
              · exact ⟨wallMovesOk_nil, hok⟩
          · exact ⟨wallMovesOk_nil, hok⟩
        · exact hs
    · exact hs

theorem processLine_ok (s : ExtractState) (l : String) (hs : stateWallsOk s) :
    stateWallsOk (processLine s l) := by
  unfold processLine
  have h1 : stateWallsOk (layerStep s l) := by
    obtain ⟨hw, hc⟩ := layerStep_frame s l
    refine ⟨?_, ?_⟩
    · rw [hc]; exact hs.1
    · intro layer w hmem
      rw [hw] at hmem
      exact hs.2 layer w hmem
  have h2 := motionStep_ok (typeStep (layerStep s l) l) l (typeStep_ok _ l h1)
  obtain ⟨hw, hc⟩ := lastXYStep_frame (motionStep (typeStep (layerStep s l) l) l) l
  refine ⟨?_, ?_⟩
  · rw [hc]; exact h2.1
  · intro layer w hmem
    rw [hw] at hmem
    exact h2.2 layer w hmem

theorem foldl_processLine_ok :
    ∀ (lines : List String) (s : ExtractState), stateWallsOk s →
      stateWallsOk (lines.foldl processLine s) := by
  intro lines
  induction lines with
  | nil => intro s hs; exact hs
  | cons l rest ih => intro s hs; exact ih (processLine s l) (processLine_ok s l hs)

theorem initState_ok : stateWallsOk initState := by
  refine ⟨wallMovesOk_nil, ?_⟩
  intro layer w hw
  simp [initState] at hw

theorem finalSave_ok (s : ExtractState) (hs : stateWallsOk s) :
    stateWallsOk (finalSave s) := by
  unfold finalSave
  split
  · refine ⟨hs.1, ?_⟩
    intro layer w hw
    rcases updateWalls_mem _ _ _ _ _ hw with h | h
    · exact hs.2 layer w h
    · subst h
      exact hs.1
  · exact hs

theorem extract_ok (lines : List String) : stateWallsOk (extract lines) :=
  finalSave_ok (extractSteps lines) (foldl_processLine_ok lines initState initState_ok)

/-- C7 counterexample: the motion-shaped line `G1 XABC Y1.0 E1.0` fails
numeric parsing, yet when it is the first motion line of an internal section
it does start a perimeter block (source lines 171-188 open the block before
parsing): after `c7Lines` the extractor is inside a block even though no
move was added. -/
theorem unparsable_line_starts_block :
    (extractSteps [";TYPE:Perimeter\n"]).inside_perimeter_block = false ∧
      (extractSteps c7Lines).inside_perimeter_block = true ∧
      (extractSteps c7Lines).current_wall = [] ∧
      (extractSteps c7Lines).perimeter_block_count = 1 ∧
      parse_gcode c7Bad = none :=
  ⟨rfl, rfl, rfl, rfl, rfl⟩

/-- C7 (amended): a motion-shaped line whose numeric fields cannot be parsed
adds no Move to any Wall and never ends a block; when the extractor is
already inside an internal block the whole state is unchanged, so subsequent
valid lines continue the block.  (When no block is open, however, such a line
does open a new block — see the counterexample.) -/
theorem unparsable_line_inside_block_noop (s : ExtractState) (l : String)
    (hin : s.inside_perimeter_block = true)
    (hty : s.current_wall_type = some WallType.internal)
    (hG1 : strStarts l "G1" = true) (hX : strHasChar l 'X' = true)
    (hY : strHasChar l 'Y' = true) (hE : strHasChar l 'E' = true)
    (hparse : parse_gcode l = none) (hxy : g1xyScan l.toList = none)
    (hL : strHas l ";LAYER:" = false) (hLC : strHas l ";LAYER_CHANGE" = false)
    (hT1 : strHas l ";TYPE:External perimeter" = false)
    (hT2 : strHas l ";TYPE:Outer wall" = false)
    (hT3 : strHas l ";TYPE:Perimeter" = false)
    (hT4 : strHas l ";TYPE:Inner wall" = false)
    (hT5 : strHas l ";TYPE:" = false) :
    processLine s l = s := by
  have h1 : layerStep s l = s := by
    unfold layerStep
    rw [hL, hLC]
    simp
  have h2 : typeStep s l = s := by
    unfold typeStep
    rw [hT1, hT2, hT3, hT4, hT5]
    simp
  have h3 : motionStep s l = s := by
    unfold motionStep
    rw [if_pos ⟨hty, hG1, hX, hY, hE⟩, hparse, if_pos hin]
  have h4 : lastXYStep s l = s := by
    unfold lastXYStep
    rw [if_pos ⟨hG1, hX, hY⟩, hxy]
  unfold processLine
  rw [h1, h2, h3, h4]

/-- Witness for C7 (amended) on the malformed line inside an open block. -/
theorem unparsable_line_inside_block_noop_witness :
    processLine c7State c7Bad = c7State :=
  unparsable_line_inside_block_noop c7State c7Bad rfl rfl rfl rfl rfl rfl rfl rfl
    rfl rfl rfl rfl rfl rfl rfl

/-- C8 counterexample: on `c8Lines` a non-empty internal wall (one move) is
open when the `;TYPE:External perimeter` marker arrives, but the extractor
drops it (the type-change save requires `len(current_wall) > 5`, source
line 138): the layer's wall list stays empty. -/
theorem short_wall_dropped_at_type_change :
    (extractSteps (c8Lines.take 2)).inside_perimeter_block = true ∧
      (extractSteps (c8Lines.take 2)).current_wall.length = 1 ∧
      (extractSteps (c8Lines.take 2)).current_wall_type = some WallType.internal ∧
      (extract c8Lines).layer_walls 0 = [] :=
  ⟨rfl, rfl, rfl, rfl⟩

/-- C8 (amended): at a perimeter-type marker with a non-empty internal wall
open, the wall is finalized into the current layer's list only when it has
more than 5 moves; with 5 or fewer moves it is dropped.  (The `length ≥ 1`
acceptance applies only at block ends — `M` commands, travel moves, comment
lines — and at end of input, not at type changes.) -/
theorem type_marker_saves_only_gt5 (s : ExtractState) (l : String)
    (hty : s.current_wall_type = some WallType.internal)
    (hin : s.inside_perimeter_block = true)
    (hne : s.current_wall.isEmpty = false)
    (hm : strHas l ";TYPE:" = true)
    (hG1 : strStarts l "G1" = false)
    (hL : strHas l ";LAYER:" = false) (hLC : strHas l ";LAYER_CHANGE" = false) :
    (processLine s l).layer_walls =
      (if s.current_wall.length > 5 then
        updateWalls s.layer_walls s.current_layer s.current_wall
      else s.layer_walls) ∧
      (processLine s l).current_wall = [] ∧
      (processLine s l).inside_perimeter_block = false := by
  have h1 : layerStep s l = s := by
    unfold layerStep
    rw [hL, hLC]
    simp
  have hsave : saveWallGT5 s =
      (if s.current_wall.length > 5 then
        updateWalls s.layer_walls s.current_layer s.current_wall
      else s.layer_walls) := by
    unfold saveWallGT5
    by_cases h : s.current_wall.length > 5
    · rw [if_pos ⟨hne, hty, hin, h⟩, if_pos h]
    · rw [if_neg (fun hc => h hc.2.2.2), if_neg h]
  have h2 : ∃ ty, typeStep s l =
      { s with layer_walls := saveWallGT5 s, current_wall_type := ty,
               inside_perimeter_block := false, current_wall := [] } := by
    unfold typeStep
    by_cases b1 : strHas l ";TYPE:External perimeter" = true ∨
        strHas l ";TYPE:Outer wall" = true
    · exact ⟨some WallType.external, by rw [if_pos b1]⟩
    · by_cases b2 : strHas l ";TYPE:Perimeter" = true ∨
          strHas l ";TYPE:Inner wall" = true
      · exact ⟨some WallType.internal, by rw [if_neg b1, if_pos b2]⟩
      · exact ⟨none, by rw [if_neg b1, if_neg b2, if_pos hm]⟩
  obtain ⟨ty, h2⟩ := h2
  have h3 : motionStep (typeStep s l) l = typeStep s l := by
    rw [h2]
    unfold motionStep
    simp [hG1]
  have h4 : lastXYStep (typeStep s l) l = typeStep s l := by
    unfold lastXYStep
    simp [hG1]
  unfold processLine
  rw [h1, h3, h4, h2, hsave]
  exact ⟨rfl, rfl, rfl⟩

/-- Witness for C8 (amended) on a one-move wall at an external-perimeter
marker: the wall list is unchanged (the wall is dropped) and the block
closes. -/
theorem type_marker_saves_only_gt5_witness :
    (processLine c8State ";TYPE:External perimeter\n").layer_walls =
        c8State.layer_walls ∧
      (processLine c8State ";TYPE:External perimeter\n").current_wall = [] ∧
      (processLine c8State ";TYPE:External perimeter\n").inside_perimeter_block = false := by
  have h := type_marker_saves_only_gt5 c8State ";TYPE:External perimeter\n"
    rfl rfl rfl rfl rfl rfl rfl
  refine ⟨?_, h.2.1, h.2.2⟩
  rw [h.1]
  norm_num [c8State]

/-- C9 counterexample: on `c9Lines` the extractor finalizes a wall whose
second (non-leading) move has `is_travel = true` — the middle line
`G1 X3.0 Y4.0 EABC` contains the letter `E` (so it is grouped as an
extruding move, source line 171) but its `E` field has no parsable numeral,
so `parse_gcode` marks it as travel (source line 65). -/
theorem mid_wall_travel_move_exists :
    ((extract c9Lines).layer_walls 0).map (List.map GCodeMove.is_travel) =
      [[false, true, false]] := rfl

/-- C9 (amended): in every Wall the extractor finalizes, every non-leading
Move flagged as travel comes from a source line whose `E` field has no
parsable numeral; equivalently, every Move parsed from a line with a
numeric `E` value has `is_travel = false`, and a travel-flagged Move other
than the injected leading one can only stem from a malformed `E` field. -/
theorem nonleading_travel_has_unparsable_e (lines : List String) (layer : ℕ)
    (w : List GCodeMove) (hw : w ∈ (extract lines).layer_walls layer)
    (m : GCodeMove) (hm : m ∈ w.drop 1) (ht : m.is_travel = true)
    (str : String) (hline : m.line = SrcLine.orig str) :
    searchVal 'E' str.toList = none :=
  (extract_ok lines).2 layer w hw m hm ht str hline

/-- Witness for C9 (amended) on `c9Lines`: the middle move is travel-flagged
and its line's `E` field indeed has no parsable numeral. -/
theorem nonleading_travel_has_unparsable_e_witness :
    searchVal 'E' "G1 X3.0 Y4.0 EABC\n".toList = none := by
  have hw : c9Wall ∈ (extract c9Lines).layer_walls 0 := by
    have h : (extract c9Lines).layer_walls 0 = [c9Wall] := rfl
    rw [h]
    exact List.mem_singleton.2 rfl
  have hm : c9Move ∈ c9Wall.drop 1 := by
    have h : c9Wall.drop 1 = c9Move :: (c9Wall.drop 1).tail := rfl
    rw [h]
    exact List.mem_cons_self _ _
  exact nonleading_travel_has_unparsable_e c9Lines 0 c9Wall hw c9Move hm rfl
    "G1 X3.0 Y4.0 EABC\n" rfl

/-! ## Synthesizer lemmas and claim theorems -/

theorem distance_horiz (x1 x2 y : ℝ) (h : x1 ≤ x2) :
    Point.distance ⟨x1, y⟩ ⟨x2, y⟩ = x2 - x1 := by
  unfold Point.distance
  rw [show (x1 - x2) ^ 2 + (y - y) ^ 2 = (x2 - x1) ^ 2 by ring,
    Real.sqrt_sq_eq_abs, abs_of_nonneg (by linarith)]

theorem distance_vert (x y1 y2 : ℝ) :
    Point.distance ⟨x, y1⟩ ⟨x, y2⟩ = |y2 - y1| := by
  unfold Point.distance
  rw [show (x - x) ^ 2 + (y1 - y2) ^ 2 = (y2 - y1) ^ 2 by ring, Real.sqrt_sq_eq_abs]

/-- C5: the pairing offset is 1 on odd layers and 0 on even layers — in
particular it differs between any two consecutive layers, staggering which
walls pair — and on an odd layer with at least one wall the first emitted
block is the unpaired first wall as a pass-through of its original lines. -/
theorem odd_layer_offset_and_first_wall (layer : ℕ) (hodd : layer % 2 = 1)
    (walls : List (List GCodeMove)) (w : List GCodeMove)
    (rest : List (List GCodeMove)) (hw : walls = w :: rest) (zl : ℝ) :
    start_index layer = 1 ∧ start_index (layer + 1) = 0 ∧
      (createZigzags layer walls zl).head? = some (passBlock w) := by
  subst hw
  refine ⟨by simp [start_index, hodd], ?_, ?_⟩
  · have he : (layer + 1) % 2 = 0 := by omega
    simp [start_index, he]
  · unfold createZigzags
    rw [if_pos ⟨hodd, by simp⟩]
    simp

/-- Witness for C5 at layer 1 with a single one-move wall. -/
theorem odd_layer_offset_and_first_wall_witness :
    start_index 1 = 1 ∧ start_index 2 = 0 ∧
      (createZigzags 1 [c5Wall] 1).head? = some (passBlock c5Wall) :=
  odd_layer_offset_and_first_wall 1 rfl [c5Wall] c5Wall [] rfl 1

theorem calc_len_three (x1 x2 x3 : ℝ) (h1 : x1 ≤ x2) (h2 : x2 ≤ x3)
    (e1 e2 e3 : Option ℝ) (s1 s2 s3 : String) :
    calculate_wall_length [mkMove x1 0 e1 s1, mkMove x2 0 e2 s2, mkMove x3 0 e3 s3] =
      x3 - x1 := by
  simp only [calculate_wall_length, mkMove, GCodeMove.get_point]
  rw [distance_horiz x1 x2 0 h1, distance_horiz x2 x3 0 h2]
  ring

theorem c4Wall_length : calculate_wall_length c4Wall = 30.6 := by
  have h := calc_len_three 0 15 30.6 (by norm_num) (by norm_num) none none none
    "a\n" "b\n" "c\n"
  unfold c4Wall
  rw [h]
  norm_num

theorem ex10Wall_length : calculate_wall_length ex10Wall = 10 := by
  have h := calc_len_three 0 5 10 (by norm_num) (by norm_num) none none none
    "d\n" "e\n" "f\n"
  unfold ex10Wall
  rw [h]
  norm_num

theorem pair_c4_value : pair_num_segments c4Wall c4Wall 1 = 30 := by
  unfold pair_num_segments pyInt
  rw [c4Wall_length]
  rw [show ((30.6 : ℝ) + 30.6) / 2 / 1 = 30.6 by norm_num, if_pos (by norm_num : (0:ℝ) ≤ 30.6)]
  rw [show ⌊(30.6 : ℝ)⌋ = 30 by rw [Int.floor_eq_iff] ; norm_num]
  norm_num

theorem pair_ex10_value : pair_num_segments ex10Wall ex10Wall 1 = 20 := by
  unfold pair_num_segments pyInt
  rw [ex10Wall_length]
  rw [show ((10 : ℝ) + 10) / 2 / 1 = 10 by norm_num, if_pos (by norm_num : (0:ℝ) ≤ 10)]
  rw [show ⌊(10 : ℝ)⌋ = 10 by norm_num]
  norm_num

/-- C4 counterexample: the code truncates (`int()`, source line 351) where
the claim says `round`: for two walls of path length 30.6 and zigzag length
1.0 the code computes 30 segments while the claimed formula gives 31. -/
theorem segment_count_truncates_not_rounds :
    pair_num_segments c4Wall c4Wall 1 = 30 ∧ spec_num_segments c4Wall c4Wall 1 = 31 := by
  refine ⟨pair_c4_value, ?_⟩
  unfold spec_num_segments
  rw [c4Wall_length]
  rw [show ((30.6 : ℝ) + 30.6) / 2 / 1 = 30.6 by norm_num]
  rw [show round (30.6 : ℝ) = 31 by rw [round_eq]; norm_num [Int.floor_eq_iff]]
  norm_num

/-- C4 (amended): the segment count of a zigzagged pair is
`max(20, int(avg(L1,L2) / zigzag_length))` with Python's truncating `int()`
(not rounding): two 10mm walls at zigzag length 1.0 give
`max(20, 10) = 20` as the claim's example says, and walls of average length
30.6 at 1.0 give 30 (truncation), not 31 (rounding). -/
theorem segment_count_values :
    pair_num_segments ex10Wall ex10Wall 1 = 20 ∧
      pair_num_segments c4Wall c4Wall 1 = 30 :=
  ⟨pair_ex10_value, pair_c4_value⟩

theorem edpWhile_acc (p2 : Point) (e1 e2 : Option ℝ) (sl : ℝ) :
    ∀ fuel p1 sd cur tgt acc,
      edpWhile p2 e1 e2 sl fuel p1 sd cur tgt acc =
        ((acc ++ (edpWhile p2 e1 e2 sl fuel p1 sd cur tgt []).1),
          (edpWhile p2 e1 e2 sl fuel p1 sd cur tgt []).2.1,
          (edpWhile p2 e1 e2 sl fuel p1 sd cur tgt []).2.2) := by
  intro fuel
  induction fuel with
  | zero => intro p1 sd cur tgt acc; simp [edpWhile]
  | succ n ih =>
    intro p1 sd cur tgt acc
    unfold edpWhile
    split
    · rw [ih]
      conv_rhs => rw [ih]
      simp
    · simp

theorem edpFor_acc (sl : ℝ) (fuel : ℕ) :
    ∀ (ws : List GCodeMove) (cur tgt : ℝ) (acc : List GCodeMove),
      edpFor sl fuel ws cur tgt acc = acc ++ edpFor sl fuel ws cur tgt [] := by
  intro ws
  induction ws with
  | nil => intro cur tgt acc; simp [edpFor]
  | cons a rest ih =>
    cases rest with
    | nil => intro cur tgt acc; simp [edpFor]
    | cons b rest2 =>
      intro cur tgt acc
      unfold edpFor
      dsimp only
      split
      · rw [edpWhile_acc]
        conv_rhs => rw [edpWhile_acc]
        dsimp only
        rw [ih, ih]
        conv_rhs => rw [ih]
        simp
      · exact ih _ _ _

theorem edp_head (wall : List GCodeMove) (n : ℕ) (h2 : 2 ≤ wall.length) (hn : 2 ≤ n) :
    (evenly_distribute_points wall n).head? = some wall.headI := by
  simp only [evenly_distribute_points, if_neg (show ¬(wall.length < 2 ∨ n < 2) by omega)]
  rw [edpFor_acc]
  split
  · simp
  · simp

theorem edp_last (wall : List GCodeMove) (n : ℕ) (h2 : 2 ≤ wall.length) (hn : 2 ≤ n)
    (hlt : (evenly_distribute_points wall n).length < n) :
    (evenly_distribute_points wall n).getLast? = some wall.getLastI := by
  simp only [evenly_distribute_points,
    if_neg (show ¬(wall.length < 2 ∨ n < 2) by omega)] at hlt ⊢
  split at hlt
  · next h => rw [if_pos h]; simp
  · next h => exact absurd hlt h

/-- C3 (amended): for a wall of at least 2 points and `n ≥ 2` the resampler's
first element is the wall's original first point, and its last element is the
wall's original last point whenever fewer than `n` points were produced by
interpolation (when interpolation fills all `n` slots the last element is
instead a freshly synthesized interpolated Move with a regenerated source
line — see the counterexample); for `n < 2` or a wall of fewer than 2 points
the wall is returned unchanged. -/
theorem resample_endpoints (wall : List GCodeMove) (n : ℕ)
    (h2 : 2 ≤ wall.length) (hn : 2 ≤ n) :
    (evenly_distribute_points wall n).head? = some wall.headI ∧
      ((evenly_distribute_points wall n).length < n →
        (evenly_distribute_points wall n).getLast? = some wall.getLastI) ∧
      (∀ k, k < 2 → evenly_distribute_points wall k = wall) ∧
      (∀ short : List GCodeMove, short.length < 2 →
        evenly_distribute_points short n = short) :=
  ⟨edp_head wall n h2 hn, fun hlt => edp_last wall n h2 hn hlt,
    fun k hk => by unfold evenly_distribute_points; rw [if_pos (Or.inr hk)],
    fun short hs => by unfold evenly_distribute_points; rw [if_pos (Or.inl hs)]⟩

/-- Witness for C3 (amended) at a 3-point wall resampled to 4 points. -/
theorem resample_endpoints_witness :
    2 ≤ ex3Wall.length ∧ 2 ≤ 4 ∧
      ((evenly_distribute_points ex3Wall 4).head? = some ex3Wall.headI ∧
        ((evenly_distribute_points ex3Wall 4).length < 4 →
          (evenly_distribute_points ex3Wall 4).getLast? = some ex3Wall.getLastI) ∧
        (∀ k, k < 2 → evenly_distribute_points ex3Wall k = ex3Wall) ∧
        (∀ short : List GCodeMove, short.length < 2 →
          evenly_distribute_points short 4 = short)) :=
  ⟨by norm_num [ex3Wall], by norm_num,
    resample_endpoints ex3Wall 4 (by norm_num [ex3Wall]) (by norm_num)⟩

theorem edpWhile_pos (p2 : Point) (e1 e2 : Option ℝ) (sl : ℝ) (n : ℕ) (hn : n ≠ 0)
    (p1 : Point) (sd cur tgt : ℝ) (acc : List GCodeMove)
    (h : cur + sd ≥ tgt) (nx ny : ℝ) (ne : Option ℝ)
    (hnx : nx = p1.x + (tgt - cur) / sd * (p2.x - p1.x))
    (hny : ny = p1.y + (tgt - cur) / sd * (p2.y - p1.y))
    (hne : ne = (match e1, e2 with
      | some a, some b => some (a + (tgt - cur) / sd * (b - a))
      | _, _ => none)) :
    edpWhile p2 e1 e2 sl n p1 sd cur tgt acc =
      edpWhile p2 e1 e2 sl (n - 1) ⟨nx, ny⟩ (Point.distance ⟨nx, ny⟩ p2) 0 sl
        (acc ++ [⟨.synth nx ny (lineE ne), nx, ny, ne, false⟩]) := by
  subst hnx hny hne
  cases n with
  | zero => exact absurd rfl hn
  | succ m =>
    rw [show m + 1 - 1 = m from rfl]
    conv_lhs => unfold edpWhile
    rw [if_pos h]

theorem edpWhile_neg (p2 : Point) (e1 e2 : Option ℝ) (sl : ℝ) (n : ℕ)
    (p1 : Point) (sd cur tgt : ℝ) (acc : List GCodeMove)
    (h : ¬ cur + sd ≥ tgt) :
    edpWhile p2 e1 e2 sl n p1 sd cur tgt acc = (acc, cur, tgt) := by
  cases n with
  | zero => rfl
  | succ m => unfold edpWhile; rw [if_neg h]

theorem edpFor_single (sl : ℝ) (fuel : ℕ) (b : GCodeMove) (cur tgt : ℝ)
    (acc : List GCodeMove) : edpFor sl fuel [b] cur tgt acc = acc := rfl

theorem edpFor_two (sl : ℝ) (fuel : ℕ) (a b : GCodeMove) (cur tgt : ℝ)
    (acc : List GCodeMove) :
    edpFor sl fuel [a, b] cur tgt acc =
      (if cur + a.get_point.distance b.get_point ≥ tgt then
        (edpWhile b.get_point a.e b.e sl fuel a.get_point
          (a.get_point.distance b.get_point) cur tgt acc).1
      else acc) := by
  unfold edpFor
  dsimp only
  split
  · rcases hw : edpWhile b.get_point a.e b.e sl fuel a.get_point
      (a.get_point.distance b.get_point) cur tgt acc with ⟨acc', cur', tgt'⟩
    dsimp only
    exact edpFor_single sl fuel b cur' tgt' acc'
  · exact edpFor_single sl fuel b _ tgt acc

theorem c3Wall_length : calculate_wall_length c3Wall = 2 := by
  simp only [c3Wall, calculate_wall_length, mkMove, GCodeMove.get_point]
  rw [distance_horiz 0 2 0 (by norm_num)]
  norm_num

theorem c3_eval :
    evenly_distribute_points c3Wall 2 =
      [mkMove 0 0 (some 1) "A\n", ⟨.synth 2 0 (some 1), 2, 0, some 1, false⟩] := by
  have hgp1 : (mkMove 0 0 (some 1) "A\n").get_point = (⟨0, 0⟩ : Point) := rfl
  have hgp2 : (mkMove 2 0 (some 1) "B\n").get_point = (⟨2, 0⟩ : Point) := rfl
  have he1 : (mkMove 0 0 (some 1) "A\n").e = some 1 := rfl
  have he2 : (mkMove 2 0 (some 1) "B\n").e = some 1 := rfl
  have hd : Point.distance ⟨(0 : ℝ), 0⟩ ⟨(2 : ℝ), 0⟩ = 2 := by
    rw [distance_horiz 0 2 0 (by norm_num)]
    norm_num
  have hd0 : Point.distance ⟨(2 : ℝ), 0⟩ ⟨(2 : ℝ), 0⟩ = 0 := by
    rw [distance_horiz 2 2 0 le_rfl]
    norm_num
  have hw1 : edpWhile ⟨2, 0⟩ (some 1) (some 1) 2 2 ⟨0, 0⟩ 2 0 2
        [mkMove 0 0 (some 1) "A\n"] =
      edpWhile ⟨2, 0⟩ (some 1) (some 1) 2 1 ⟨2, 0⟩
        (Point.distance ⟨2, 0⟩ ⟨2, 0⟩) 0 2
        [mkMove 0 0 (some 1) "A\n", ⟨.synth 2 0 (some 1), 2, 0, some 1, false⟩] := by
    have h := edpWhile_pos ⟨2, 0⟩ (some 1) (some 1) 2 2 (by norm_num) ⟨0, 0⟩ 2 0 2
      [mkMove 0 0 (some 1) "A\n"] (by norm_num) 2 0 (some 1)
      (by norm_num) (by norm_num) (by norm_num)
    rw [h]
    norm_num [lineE]
  have hw2 : edpWhile ⟨2, 0⟩ (some 1) (some 1) 2 1 ⟨2, 0⟩
        (Point.distance ⟨2, 0⟩ ⟨2, 0⟩) 0 2
        [mkMove 0 0 (some 1) "A\n", ⟨.synth 2 0 (some 1), 2, 0, some 1, false⟩] =
      ([mkMove 0 0 (some 1) "A\n", ⟨.synth 2 0 (some 1), 2, 0, some 1, false⟩], 0, 2) :=
    edpWhile_neg _ _ _ _ _ _ _ _ _ _ (by rw [hd0]; norm_num)
  have hcond : ¬(c3Wall.length < 2 ∨ 2 < 2) := by norm_num [c3Wall]
  simp only [evenly_distribute_points, if_neg hcond, c3Wall_length]
  rw [show (2 : ℝ) / ((2 - 1 : ℕ) : ℝ) = 2 by norm_num]
  simp only [c3Wall, List.headI]
  rw [edpFor_two, hgp1, hgp2, he1, he2, hd]
  rw [if_pos (show (0 : ℝ) + 2 ≥ 2 by norm_num)]
  rw [hw1, hw2]
  norm_num

/-- C3 counterexample: resampling the 2-point wall `c3Wall` to `n = 2` fills
all `n` slots by interpolation (the boundary insertion at the exact segment
end), so the original last Move is never appended (source lines 607-608) and
the returned last element is a freshly synthesized point whose source line is
regenerated — not identical to the wall's original last point. -/
theorem resample_last_point_not_original :
    (evenly_distribute_points c3Wall 2).length = 2 ∧
      (evenly_distribute_points c3Wall 2).getLastI.line ≠ c3Wall.getLastI.line := by
  rw [c3_eval]
  refine ⟨rfl, ?_⟩
  simp [c3Wall, mkMove, List.getLastI]

theorem zigzagGo_stop (w1p w2p : List GCodeMove) (m n j : ℕ) (le : ℝ)
    (hj : ¬ j < m - 1) : zigzagGo w1p w2p m n j le = [] := by
  cases n with
  | zero => rfl
  | succ k =>
    unfold zigzagGo
    rw [if_neg hj]

theorem zigzagGo_step_conn (w1p w2p : List GCodeMove) (m n : ℕ) (hn : n ≠ 0)
    (j : ℕ) (le : ℝ) (hj : j < m - 1) (hj2 : j < m - 2)
    (sp ep np : GCodeMove)
    (hsp : sp = (if j % 2 = 0 then w1p.getD j default else w2p.getD j default))
    (hep : ep = (if j % 2 = 0 then w2p.getD j default else w1p.getD j default))
    (hnp : np = (if (j + 1) % 2 = 0 then
        (if j + 1 < w1p.length then w1p.getD (j + 1) default else w1p.getLastI)
      else
        (if j + 1 < w2p.length then w2p.getD (j + 1) default else w2p.getLastI))) :
    zigzagGo w1p w2p m n j le =
      OutLine.zext ep.x ep.y (sp.get_point.distance ep.get_point * extrusion_rate)
          s!"Zigzag segment {j}" ::
        OutLine.zext np.x np.y
          (sp.get_point.distance ep.get_point * extrusion_rate +
            ep.get_point.distance np.get_point * extrusion_rate)
          s!"Zigzag connector {j}" ::
        zigzagGo w1p w2p m (n - 1) (j + 1)
          (sp.get_point.distance ep.get_point * extrusion_rate +
            ep.get_point.distance np.get_point * extrusion_rate) := by
  subst hsp hep hnp
  cases n with
  | zero => exact absurd rfl hn
  | succ k =>
    rw [show k + 1 - 1 = k from rfl]
    conv_lhs => unfold zigzagGo
    rw [if_pos hj, if_pos hj2]

theorem zigzagGo_step_last (w1p w2p : List GCodeMove) (m n : ℕ) (hn : n ≠ 0)
    (j : ℕ) (le : ℝ) (hj : j < m - 1) (hj2 : ¬ j < m - 2)
    (sp ep : GCodeMove)
    (hsp : sp = (if j % 2 = 0 then w1p.getD j default else w2p.getD j default))
    (hep : ep = (if j % 2 = 0 then w2p.getD j default else w1p.getD j default)) :
    zigzagGo w1p w2p m n j le =
      OutLine.zext ep.x ep.y (sp.get_point.distance ep.get_point * extrusion_rate)
          s!"Zigzag segment {j}" ::
        zigzagGo w1p w2p m (n - 1) (j + 1)
          (sp.get_point.distance ep.get_point * extrusion_rate) := by
  subst hsp hep
  cases n with
  | zero => exact absurd rfl hn
  | succ k =>
    rw [show k + 1 - 1 = k from rfl]
    conv_lhs => unfold zigzagGo
    rw [if_pos hj, if_neg hj2]

theorem c2_block_es :
    extrudeEs (buildZigzag c2w1p c2w2p 20 c2w2p) =
      [5 * extrusion_rate, 5 * extrusion_rate + 1 * extrusion_rate,
        5 * extrusion_rate] := by
  have hga : c2w1p.getD 0 default = mkMove 0 0 none "" := rfl
  have hgb : c2w1p.getD 1 default = mkMove 1 0 none "" := rfl
  have hgc : c2w2p.getD 0 default = mkMove 0 5 none "" := rfl
  have hgd : c2w2p.getD 1 default = mkMove 1 5 none "" := rfl
  have hdA : (mkMove 0 0 none "").get_point.distance (mkMove 0 5 none "").get_point = 5 := by
    show Point.distance ⟨0, 0⟩ ⟨0, 5⟩ = 5
    rw [distance_vert]
    norm_num
  have hdB : (mkMove 0 5 none "").get_point.distance (mkMove 1 5 none "").get_point = 1 := by
    show Point.distance ⟨0, 5⟩ ⟨1, 5⟩ = 1
    rw [distance_horiz 0 1 5 (by norm_num)]
    norm_num
  have hdC : (mkMove 1 5 none "").get_point.distance (mkMove 1 0 none "").get_point = 5 := by
    show Point.distance ⟨1, 5⟩ ⟨1, 0⟩ = 5
    rw [distance_vert]
    norm_num
  have h0 : zigzagGo c2w1p c2w2p 3 3 0 1.5 =
      OutLine.zext (mkMove 0 5 none "").x (mkMove 0 5 none "").y (5 * extrusion_rate)
          s!"Zigzag segment {0}" ::
        OutLine.zext (mkMove 1 5 none "").x (mkMove 1 5 none "").y
          (5 * extrusion_rate + 1 * extrusion_rate) s!"Zigzag connector {0}" ::
        zigzagGo c2w1p c2w2p 3 2 1 (5 * extrusion_rate + 1 * extrusion_rate) := by
    have h := zigzagGo_step_conn c2w1p c2w2p 3 3 (by norm_num) 0 1.5
      (by norm_num) (by norm_num)
      (mkMove 0 0 none "") (mkMove 0 5 none "") (mkMove 1 5 none "")
      (by rw [if_pos (show 0 % 2 = 0 from rfl)]; exact hga.symm)
      (by rw [if_pos (show 0 % 2 = 0 from rfl)]; exact hgc.symm)
      (by
        rw [if_neg (show ¬(0 + 1) % 2 = 0 by norm_num),
          if_pos (show 0 + 1 < c2w2p.length by norm_num [c2w2p])]
        show mkMove 1 5 none "" = c2w2p.getD 1 default
        exact hgd.symm)
    rw [h, hdA, hdB]
  have h1 : zigzagGo c2w1p c2w2p 3 2 1 (5 * extrusion_rate + 1 * extrusion_rate) =
      OutLine.zext (mkMove 1 0 none "").x (mkMove 1 0 none "").y (5 * extrusion_rate)
          s!"Zigzag segment {1}" ::
        zigzagGo c2w1p c2w2p 3 1 2 (5 * extrusion_rate) := by
    have h := zigzagGo_step_last c2w1p c2w2p 3 2 (by norm_num) 1
      (5 * extrusion_rate + 1 * extrusion_rate) (by norm_num) (by norm_num)
      (mkMove 1 5 none "") (mkMove 1 0 none "")
      (by
        rw [if_neg (show ¬1 % 2 = 0 by norm_num)]
        exact hgd.symm)
      (by
        rw [if_neg (show ¬1 % 2 = 0 by norm_num)]
        exact hgb.symm)
    rw [h, hdC]
  have h2 : zigzagGo c2w1p c2w2p 3 1 2 (5 * extrusion_rate) = [] :=
    zigzagGo_stop _ _ _ _ _ _ (by norm_num)
  have hm : min (min c2w1p.length c2w2p.length) 20 = 3 := by norm_num [c2w1p, c2w2p]
  have hle1 : c2w1p.headI.e = none := rfl
  have hle2 : c2w2p.headI.e = none := rfl
  simp only [buildZigzag, hle1, hle2]
  rw [hm, if_pos (show c2w2p.length > 0 by norm_num [c2w2p])]
  rw [h0, h1, h2]
  simp [extrudeEs]

/-- C2: in the block built from two parallel straight walls 5mm apart, the
`E` sequence of the extruding moves is [0.165, 0.198, 0.165] — it decreases
at the second cross-connect because the code computes the crossing's E as
`distance * extrusion_rate` alone (source line 393) instead of adding it to
the previous E (as it does for connectors, source line 419, and as the spec
states). -/
theorem zigzag_e_values_decrease :
    ¬ (extrudeEs (buildZigzag c2w1p c2w2p 20 c2w2p)).Chain' (· ≤ ·) := by
  rw [c2_block_es]
  intro h
  rw [List.chain'_cons, List.chain'_cons] at h
  have hdrop := h.2.1
  norm_num [extrusion_rate] at hdrop
